import Mathlib

/-!
Verification of the retention/reconciliation logic of the audio-files
repository.  The two reconciliation scripts are shallowly embedded:

* `delete_audio_files` models `DeleteLastFiveAudioFiles.delete_audio_files`
  (Policy A, tail-5 eviction) from `audiodeletefiles.py`;
* `process_audio_files` models `ProcessAudioFiles.process_audio_files`
  (Policy B, age + allowlist filter) from `updatedcompareanddeletefile.py`.

A CSV file is modelled as the list of rows produced by `csv.reader`
(a row is a list of cell strings).  The observable effects of a run are
modelled as an explicit event trace (`Event`): one `remoteDelete` event per
Cloudinary delete request issued, and one `writeOutput` event per write of
the fixed output file `RemainingAudioFileDetails.csv`.  The file system is
a map from file name to optional content; `applyFS` folds an event trace
over it.  Python exceptions are modelled by `Option`/abort flags exactly
where the source raises: an out-of-range index access aborts, a timestamp
that `datetime.strptime` rejects aborts, and the broad `except` handlers of
the source correspond to the run returning with the events emitted so far.
-/

/-- One CSV row as produced by Python's `csv.reader`. -/
abbrev Row := List String

/-- Classification of one per-identifier remote deletion result, from the
inner loop of `delete_audio_files`: `Deleted` when the API response confirms
deletion, `NotDeleted` when it responds without confirming, `RequestFailed`
when `cloudinary.exceptions.Error` is raised. -/
inductive DeleteOutcome where
  | Deleted
  | NotDeleted
  | RequestFailed
deriving DecidableEq

/-- Observable side effects of a reconciliation run: a remote delete request
for one identifier, or a write of the fixed-named output CSV with the given
full content. -/
inductive Event where
  | remoteDelete (identifier : String) : Event
  | writeOutput (content : List Row) : Event
deriving DecidableEq

/-- The fixed output file name used by both scripts
(`new_csv_filename = "RemainingAudioFileDetails.csv"`). -/
def new_csv_filename : String := "RemainingAudioFileDetails.csv"

/-- The header row both scripts write first
(`writer.writerow(["Filename", "Created At"])`). -/
def csvHeader : Row := ["Filename", "Created At"]

/-- Fold an event trace over the file system (file name to optional
content).  Remote deletes do not touch the file system; a `writeOutput`
replaces the content of `RemainingAudioFileDetails.csv`, the only file
either script ever opens for writing. -/
def applyFS (fs : String → Option (List Row)) : List Event → (String → Option (List Row))
  | [] => fs
  | Event.remoteDelete _ :: rest => applyFS fs rest
  | Event.writeOutput c :: rest =>
      applyFS (fun n => if n = new_csv_filename then some c else fs n) rest

/-- The rows actually written by `save_remaining_details_to_csv`'s loop
(`writer.writerow([detail[0], detail[1]])`): each well-formed row
contributes its first two cells; a row with fewer than two cells raises
`IndexError` inside the function's `try`, which stops the loop, so later
rows are not written. -/
def writeRows : List Row → List Row
  | [] => []
  | (a :: b :: _) :: rest => [a, b] :: writeRows rest
  | _ :: _ => []

/-- Content of `RemainingAudioFileDetails.csv` after
`save_remaining_details_to_csv remaining` runs: the file is opened in mode
`"w"` (truncating it), the header is written, then the rows of
`writeRows remaining`. -/
def save_remaining_details_to_csv (remaining : List Row) : List Row :=
  csvHeader :: writeRows remaining

/-- Policy A selection (`files_to_delete = audio_details[-5:]`): the last
five rows, or the whole list when it has fewer than five rows. -/
def files_to_delete (xs : List Row) : List Row := xs.drop (xs.length - 5)

/-- Policy A selection (`remaining_files = audio_details[:-5]`): everything
before the last five rows, empty when the list has at most five rows. -/
def remaining_files (xs : List Row) : List Row := xs.take (xs.length - 5)

/-- The deletion loop of `delete_audio_files`: for each row of
`files_to_delete`, `filename = file_detail[0]` (an empty row raises
`IndexError` outside the inner `try`, aborting the loop — third component
`false`), then one delete request is issued and its outcome classified.
Returns the events emitted, the classified outcomes in order, and whether
the loop ran to completion. -/
def deletePass (api : String → DeleteOutcome) :
    List Row → List Event × List (String × DeleteOutcome) × Bool
  | [] => ([], [], true)
  | row :: rest =>
    match row.head? with
    | none => ([], [], false)
    | some filename =>
      let r := deletePass api rest
      (Event.remoteDelete filename :: r.1, (filename, api filename) :: r.2.1, r.2.2)

/-- Policy A run (`DeleteLastFiveAudioFiles.delete_audio_files`): given the
per-identifier behaviour of the Cloudinary delete API and the content of
the input CSV (`none` when the file does not exist, which makes the method
return early), produce the event trace and the classified outcomes.  When
the file has at most one row (header only) the method logs and returns
early.  Otherwise the tail-5 partition is taken on the rows after the
header, the delete pass runs, and — only if the delete pass did not raise —
the remaining rows are saved to the fixed output file. -/
def delete_audio_files (api : String → DeleteOutcome) (input : Option (List Row)) :
    List Event × List (String × DeleteOutcome) :=
  match input with
  | none => ([], [])
  | some reader =>
    if reader.length ≤ 1 then ([], [])
    else
      let audio_details := reader.drop 1
      let r := deletePass api (files_to_delete audio_details)
      if r.2.2 then
        (r.1 ++ [Event.writeOutput
          (save_remaining_details_to_csv (remaining_files audio_details))], r.2.1)
      else (r.1, r.2.1)

/-- Policy A run acting on the file system: the input CSV named
`inputName` is read, and the run's events are applied. -/
def runA (api : String → DeleteOutcome) (fs : String → Option (List Row))
    (inputName : String) : String → Option (List Row) :=
  applyFS fs (delete_audio_files api (fs inputName)).1

/-- The allowlist constant `BACKGROUND_MUSIC_URLS` of
`updatedcompareanddeletefile.py`, an insertion-ordered mapping from short
name to full URL, with the special `"none"` entry mapping to the empty
string. -/
def BACKGROUND_MUSIC_URLS : List (String × String) :=
  [("none", ""),
   ("default", "https://res.cloudinary.com/dsw0dw6j6/video/upload/v1731607560/tiktok_audio/default.mp3"),
   ("hard-as", "https://res.cloudinary.com/dsw0dw6j6/video/upload/v1731607548/tiktok_audio/hard-as.mp3"),
   ("wonders", "https://res.cloudinary.com/dsw0dw6j6/video/upload/v1731607550/tiktok_audio/wonders.mp3"),
   ("hot-pepper", "https://res.cloudinary.com/dsw0dw6j6/video/upload/v1731607551/tiktok_audio/hot-pepper.mp3"),
   ("transition", "https://res.cloudinary.com/dsw0dw6j6/video/upload/v1731607553/tiktok_audio/transition.mp3"),
   ("daylight", "https://res.cloudinary.com/dsw0dw6j6/video/upload/v1731607556/tiktok_audio/daylight.mp3"),
   ("cinematic-epic", "https://res.cloudinary.com/dsw0dw6j6/video/upload/v1731607558/tiktok_audio/cinematic-epic.mp3"),
   ("lovely", "https://res.cloudinary.com/dsw0dw6j6/video/upload/v1731607562/tiktok_audio/lovely.mp3"),
   ("emotional-chill", "https://res.cloudinary.com/dsw0dw6j6/video/upload/v1731607564/tiktok_audio/emotional-chill.mp3"),
   ("epic-cinematic", "https://res.cloudinary.com/dsw0dw6j6/video/upload/v1731607567/tiktok_audio/epic-cinematic.wav"),
   ("aura-fast", "https://res.cloudinary.com/dsw0dw6j6/video/upload/v1731607569/tiktok_audio/aura-fast.mp3"),
   ("summit", "https://res.cloudinary.com/dsw0dw6j6/video/upload/v1731607571/tiktok_audio/summit.mp3")]

/-- The value set of the allowlist (`BACKGROUND_MUSIC_URLS.values()`):
membership of a record's identifier is tested against these full URLs, not
against the short-name keys. -/
def allowlistValues : List String := BACKGROUND_MUSIC_URLS.map Prod.snd

/-- Leap-year test of the proleptic Gregorian calendar, as in Python's
`calendar.isleap`. -/
def isLeap (y : Nat) : Bool := y % 4 == 0 && (y % 100 != 0 || y % 400 == 0)

/-- Number of days of month `m` in year `y`. -/
def daysInMonth (y m : Nat) : Nat :=
  if m = 2 then (if isLeap y then 29 else 28)
  else if m = 4 ∨ m = 6 ∨ m = 9 ∨ m = 11 then 30
  else 31

/-- Days in year `y` strictly before month `m`. -/
def daysBeforeMonth (y m : Nat) : Nat :=
  (List.range (m - 1)).foldl (fun acc i => acc + daysInMonth y (i + 1)) 0

/-- Proleptic-Gregorian ordinal of a date, mirroring CPython's
`datetime.date.toordinal`: day 1 is 0001-01-01. -/
def toOrdinal (y m d : Nat) : Nat :=
  (y - 1) * 365 + (y - 1) / 4 - (y - 1) / 100 + (y - 1) / 400 + daysBeforeMonth y m + d

/-- A naive datetime encoded as seconds since 0001-01-01 00:00:00; the
encoding is strictly monotone in (year, month, day, hour, minute, second),
so `datetime` comparison and `timedelta(days=30)` subtraction coincide with
arithmetic on these values. -/
def toSeconds (y mo d h mi s : Nat) : Nat :=
  (toOrdinal y mo d - 1) * 86400 + h * 3600 + mi * 60 + s

/-- Decimal value of a digit character. -/
def digitVal (c : Char) : Nat := c.toNat - 48

/-- The characters Python's regex `\s` matches in the ASCII range
(space, tab, newline, carriage return, vertical tab, form feed). -/
def isPyWhitespace (c : Char) : Bool :=
  c = ' ' || c = '\t' || c = '\n' || c = '\r' || c = '\x0b' || c = '\x0c'

/-- The `%Y` field of `_strptime`: the regex `\d\d\d\d`, exactly four
digits. -/
def matchY : List Char → Option (Nat × List Char)
  | a :: b :: c :: d :: rest =>
    if a.isDigit ∧ b.isDigit ∧ c.isDigit ∧ d.isDigit then
      some (((digitVal a * 10 + digitVal b) * 10 + digitVal c) * 10 + digitVal d, rest)
    else none
  | _ => none

/-- The `%m` field of `_strptime`: the regex `1[0-2]|0[1-9]|[1-9]`,
alternatives tried in order. -/
def matchm : List Char → Option (Nat × List Char)
  | a :: b :: rest =>
    if a = '1' ∧ ('0' ≤ b ∧ b ≤ '2') then some (10 + digitVal b, rest)
    else if a = '0' ∧ ('1' ≤ b ∧ b ≤ '9') then some (digitVal b, rest)
    else if '1' ≤ a ∧ a ≤ '9' then some (digitVal a, b :: rest)
    else none
  | [a] => if '1' ≤ a ∧ a ≤ '9' then some (digitVal a, []) else none
  | [] => none

/-- The `%d` field of `_strptime`: the regex
`3[01]|[12]\d|0[1-9]|[1-9]| [1-9]`, alternatives tried in order — the last
alternative accepts a space-padded single-digit day. -/
def matchd : List Char → Option (Nat × List Char)
  | a :: b :: rest =>
    if a = '3' ∧ ('0' ≤ b ∧ b ≤ '1') then some (30 + digitVal b, rest)
    else if ('1' ≤ a ∧ a ≤ '2') ∧ b.isDigit then some (digitVal a * 10 + digitVal b, rest)
    else if a = '0' ∧ ('1' ≤ b ∧ b ≤ '9') then some (digitVal b, rest)
    else if '1' ≤ a ∧ a ≤ '9' then some (digitVal a, b :: rest)
    else if a = ' ' ∧ ('1' ≤ b ∧ b ≤ '9') then some (digitVal b, rest)
    else none
  | [a] => if '1' ≤ a ∧ a ≤ '9' then some (digitVal a, []) else none
  | [] => none

/-- The `%H` field of `_strptime`: the regex `2[0-3]|[0-1]\d|\d`,
alternatives tried in order. -/
def matchH : List Char → Option (Nat × List Char)
  | a :: b :: rest =>
    if a = '2' ∧ ('0' ≤ b ∧ b ≤ '3') then some (20 + digitVal b, rest)
    else if ('0' ≤ a ∧ a ≤ '1') ∧ b.isDigit then some (digitVal a * 10 + digitVal b, rest)
    else if a.isDigit then some (digitVal a, b :: rest)
    else none
  | [a] => if a.isDigit then some (digitVal a, []) else none
  | [] => none

/-- The `%M` field of `_strptime`: the regex `[0-5]\d|\d`, alternatives
tried in order. -/
def matchM : List Char → Option (Nat × List Char)
  | a :: b :: rest =>
    if ('0' ≤ a ∧ a ≤ '5') ∧ b.isDigit then some (digitVal a * 10 + digitVal b, rest)
    else if a.isDigit then some (digitVal a, b :: rest)
    else none
  | [a] => if a.isDigit then some (digitVal a, []) else none
  | [] => none

/-- The `%S` field of `_strptime`: the regex `6[0-1]|[0-5]\d|\d`,
alternatives tried in order (60 and 61 pass the regex and are rejected
later by the `datetime` constructor). -/
def matchS : List Char → Option (Nat × List Char)
  | a :: b :: rest =>
    if a = '6' ∧ ('0' ≤ b ∧ b ≤ '1') then some (60 + digitVal b, rest)
    else if ('0' ≤ a ∧ a ≤ '5') ∧ b.isDigit then some (digitVal a * 10 + digitVal b, rest)
    else if a.isDigit then some (digitVal a, b :: rest)
    else none
  | [a] => if a.isDigit then some (digitVal a, []) else none
  | [] => none

/-- A literal character of the format string. -/
def matchChar (c : Char) : List Char → Option (List Char)
  | a :: rest => if a = c then some rest else none
  | [] => none

/-- Whitespace in the format string, which `_strptime` compiles to `\s+`:
one or more whitespace characters, matched greedily. -/
def matchSpaces : List Char → Option (List Char)
  | a :: rest => if isPyWhitespace a then some (rest.dropWhile isPyWhitespace) else none
  | [] => none

/-- Model of `datetime.strptime(s, "%Y-%m-%d %H:%M:%S")`, following
CPython's `_strptime`: the format compiles to the anchored regex
`%Y` `-` `%m` `-` `%d` `\s+` `%H` `:` `%M` `:` `%S` with the per-field
alternations given above, matched left to right (for this format the
first alternative that matches is never revised, because every ambiguous
field is followed by a non-digit literal), and the entire string must be
consumed (`unconverted data remains` otherwise).  The matched values then
pass through the `datetime` constructor, which requires year at least 1,
day within the month, and second at most 59.  On success the datetime is
returned in the seconds encoding; otherwise `none` (the source raises
`ValueError`, which aborts the run).  `\s` is modelled over the ASCII
range; non-ASCII Unicode whitespace is not modelled. -/
def strptime (s : String) : Option Nat := do
  let (y, r1) ← matchY s.data
  let r2 ← matchChar '-' r1
  let (mo, r3) ← matchm r2
  let r4 ← matchChar '-' r3
  let (d, r5) ← matchd r4
  let r6 ← matchSpaces r5
  let (h, r7) ← matchH r6
  let r8 ← matchChar ':' r7
  let (mi, r9) ← matchM r8
  let r10 ← matchChar ':' r9
  let (sec, r11) ← matchS r10
  if r11 ≠ [] then none
  else if 1 ≤ y ∧ d ≤ daysInMonth y mo ∧ sec ≤ 59 then
    some (toSeconds y mo d h mi sec)
  else none

/-- The per-row loop of `process_audio_files` (Policy B).  For each row in
order: `filename = file_detail[0]` and
`created_at = datetime.strptime(file_detail[1], ...)` — an out-of-range
index or an unparsable timestamp raises, aborting the whole loop (`none`).
Then: an identifier in `BACKGROUND_MUSIC_URLS.values()` is appended to the
remaining files unconditionally; otherwise the record is marked for
deletion when `created_at < now - timedelta(days=30)` and appended to the
remaining files when not.  Returns (remaining rows, identifiers marked for
deletion), both in original order. -/
def processLoop (now : Int) : List Row → Option (List Row × List String)
  | [] => some ([], [])
  | row :: rest =>
    match row.head? with
    | none => none
    | some filename =>
      match row[1]? with
      | none => none
      | some tsStr =>
        match strptime tsStr with
        | none => none
        | some created_at =>
          match processLoop now rest with
          | none => none
          | some (rem, dels) =>
            if filename ∈ allowlistValues then
              some ([filename, tsStr] :: rem, dels)
            else if (created_at : Int) < now - 30 * 86400 then
              some (rem, filename :: dels)
            else
              some ([filename, tsStr] :: rem, dels)

/-- Policy B run (`ProcessAudioFiles.process_audio_files`): a missing file
or a header-only file returns early with no effect; a row that fails to
parse raises, the exception is caught by the method's broad handler and the
save step is skipped (no events); otherwise the files marked for deletion
are only logged — no delete request is issued — and the remaining rows are
saved to the fixed output file. -/
def process_audio_files (now : Int) (input : Option (List Row)) : List Event :=
  match input with
  | none => []
  | some reader =>
    if reader.length ≤ 1 then []
    else
      match processLoop now (reader.drop 1) with
      | none => []
      | some (remaining, _filesToDelete) =>
        [Event.writeOutput (save_remaining_details_to_csv remaining)]

/-- Policy B run acting on the file system. -/
def runB (now : Int) (fs : String → Option (List Row))
    (inputName : String) : String → Option (List Row) :=
  applyFS fs (process_audio_files now (fs inputName))

/-- A seven-record RecordSet in listing order, used to instantiate the
universally quantified theorems on a concrete input (spec §8, end-to-end
scenario 1). -/
def demo7 : List Row :=
  [["a", "2024-01-01 00:00:00"], ["b", "2024-01-02 00:00:00"],
   ["c", "2024-01-03 00:00:00"], ["d", "2024-01-04 00:00:00"],
   ["e", "2024-01-05 00:00:00"], ["f", "2024-01-06 00:00:00"],
   ["g", "2024-01-07 00:00:00"]]

/-- A file system holding one well-formed two-record input CSV under
`in.csv` and no other file. -/
def demoFS : String → Option (List Row) :=
  fun n => if n = "in.csv" then some [csvHeader, ["a", "t1"], ["b", "t2"]] else none

/-- A file system holding a single-record input CSV under `in.csv`. -/
def demoFS1 : String → Option (List Row) :=
  fun n => if n = "in.csv" then some [csvHeader, ["a", "t1"]] else none

/-- A file system whose only file is a two-row CSV stored under the fixed
output name `RemainingAudioFileDetails.csv` itself. -/
def selfNamedFS : String → Option (List Row) :=
  fun n => if n = new_csv_filename then some [csvHeader, ["a", "t1"]] else none

/-- A file system holding, under `in.csv`, a header-only CSV: an empty
RecordSet. -/
def emptyRecordFS : String → Option (List Row) :=
  fun n => if n = "in.csv" then some [csvHeader] else none

/-- Bool-valued discriminator for remote delete events. -/
def Event.isRemoteDelete : Event → Bool
  | Event.remoteDelete _ => true
  | Event.writeOutput _ => false

section Lemmas

/-- Applying any event trace never changes a file other than the fixed
output file. -/
lemma applyFS_ne (fs : String → Option (List Row)) (evs : List Event) (n : String)
    (h : n ≠ new_csv_filename) : applyFS fs evs n = fs n := by
  induction evs generalizing fs with
  | nil => rfl
  | cons e rest ih =>
    cases e with
    | remoteDelete id => exact ih fs
    | writeOutput c =>
      show applyFS (fun m => if m = new_csv_filename then some c else fs m) rest n = fs n
      rw [ih]
      simp [h]

/-- A trace consisting only of remote delete events leaves the file system
unchanged. -/
lemma applyFS_of_deletes (fs : String → Option (List Row)) (evs : List Event)
    (h : ∀ e ∈ evs, ∃ id, e = Event.remoteDelete id) : applyFS fs evs = fs := by
  induction evs with
  | nil => rfl
  | cons e rest ih =>
    obtain ⟨id, rfl⟩ := h e (List.mem_cons_self e rest)
    exact ih fun x hx => h x (List.mem_cons_of_mem _ hx)

/-- Event application splits over trace concatenation. -/
lemma applyFS_append (fs : String → Option (List Row)) (l1 l2 : List Event) :
    applyFS fs (l1 ++ l2) = applyFS (applyFS fs l1) l2 := by
  induction l1 generalizing fs with
  | nil => rfl
  | cons e rest ih => cases e <;> simp only [List.cons_append, applyFS] <;> exact ih _

/-- Every event the deletion loop of Policy A emits is a remote delete
request. -/
lemma deletePass_events_delete (api : String → DeleteOutcome) (l : List Row) :
    ∀ e ∈ (deletePass api l).1, ∃ id, e = Event.remoteDelete id := by
  induction l with
  | nil => intro e he; simp [deletePass] at he
  | cons row rest ih =>
    intro e he
    cases hrow : row.head? with
    | none => simp [deletePass, hrow] at he
    | some fn =>
      simp only [deletePass, hrow, List.mem_cons] at he
      rcases he with rfl | he
      · exact ⟨fn, rfl⟩
      · exact ih e he

/-- On a list of nonempty rows the deletion loop of Policy A runs to
completion, emitting one delete request per row and classifying each
row's outcome by the API behaviour at its first cell. -/
lemma deletePass_complete (api : String → DeleteOutcome) (l : List Row)
    (h : ∀ r ∈ l, r ≠ []) :
    deletePass api l =
      (l.map (fun r => Event.remoteDelete (r.headD "")),
       l.map (fun r => (r.headD "", api (r.headD ""))), true) := by
  induction l with
  | nil => rfl
  | cons row rest ih =>
    obtain ⟨a, tl, rfl⟩ := List.exists_cons_of_ne_nil (h row (List.mem_cons_self _ _))
    simp [deletePass, ih fun r hr => h r (List.mem_cons_of_mem _ hr)]

/-- `writeRows` writes every row of a list of well-formed two-cell rows
unchanged. -/
lemma writeRows_of_pairs (l : List Row) (h : ∀ r ∈ l, ∃ a b, r = [a, b]) :
    writeRows l = l := by
  induction l with
  | nil => rfl
  | cons r rest ih =>
    obtain ⟨a, b, rfl⟩ := h r (List.mem_cons_self _ _)
    simp [writeRows, ih fun x hx => h x (List.mem_cons_of_mem _ hx)]

/-- No identifier the Policy B loop marks for deletion is an allowlisted
value. -/
lemma processLoop_dels_not_allowlisted (now : Int) (rows : List Row) (rem : List Row)
    (dels : List String) (h : processLoop now rows = some (rem, dels)) :
    ∀ fn ∈ dels, fn ∉ allowlistValues := by
  induction rows generalizing rem dels with
  | nil =>
    simp only [processLoop, Option.some.injEq, Prod.mk.injEq] at h
    rcases h with ⟨_, rfl⟩
    intro fn hfn
    cases hfn
  | cons x rest ih =>
    cases hx : x.head? with
    | none => simp [processLoop, hx] at h
    | some fn =>
      cases ht : x[1]? with
      | none => simp [processLoop, hx, ht] at h
      | some t =>
        cases hs : strptime t with
        | none => simp [processLoop, hx, ht, hs] at h
        | some ts =>
          cases hrec : processLoop now rest with
          | none => simp [processLoop, hx, ht, hs, hrec] at h
          | some p =>
            obtain ⟨rem2, dels2⟩ := p
            simp only [processLoop, hx, ht, hs, hrec] at h
            by_cases hall : fn ∈ allowlistValues
            · rw [if_pos hall] at h
              simp only [Option.some.injEq, Prod.mk.injEq] at h
              rcases h with ⟨_, rfl⟩
              exact ih rem2 dels2 hrec
            · rw [if_neg hall] at h
              by_cases hage : (ts : Int) < now - 30 * 86400
              · rw [if_pos hage] at h
                simp only [Option.some.injEq, Prod.mk.injEq] at h
                rcases h with ⟨_, rfl⟩
                intro g hg
                rcases List.mem_cons.mp hg with rfl | hg2
                · exact hall
                · exact ih rem2 dels2 hrec g hg2
              · rw [if_neg hage] at h
                simp only [Option.some.injEq, Prod.mk.injEq] at h
                rcases h with ⟨_, rfl⟩
                exact ih rem2 dels2 hrec

end Lemmas

/-- Claim C1: Policy A's tail-5 eviction is an order-preserving partition:
`ToKeep ++ ToDelete` is the original RecordSet with no duplication or loss;
when the RecordSet has fewer than 5 records, `ToDelete` is the whole
RecordSet and `ToKeep` is empty; when it has at least 5, `ToDelete` has
exactly 5 elements — the last 5 in original order — and `ToKeep` is
everything before them. -/
theorem policyA_tail5_partition (xs : List Row) :
    remaining_files xs ++ files_to_delete xs = xs ∧
    (xs.length < 5 → files_to_delete xs = xs ∧ remaining_files xs = []) ∧
    (5 ≤ xs.length → (files_to_delete xs).length = 5 ∧
      (remaining_files xs).length = xs.length - 5) := by
  refine ⟨List.take_append_drop _ _, fun h => ⟨?_, ?_⟩, fun h => ⟨?_, ?_⟩⟩
  · simp [files_to_delete, Nat.sub_eq_zero_of_le (le_of_lt h)]
  · simp [remaining_files, Nat.sub_eq_zero_of_le (le_of_lt h)]
  · simp only [files_to_delete, List.length_drop]; omega
  · simp only [remaining_files, List.length_take]; omega

/-- Witness for C1 at the seven-record RecordSet of spec §8 scenario 1. -/
theorem policyA_tail5_partition_witness :
    remaining_files demo7 ++ files_to_delete demo7 = demo7 ∧
    (demo7.length < 5 → files_to_delete demo7 = demo7 ∧ remaining_files demo7 = []) ∧
    (5 ≤ demo7.length → (files_to_delete demo7).length = 5 ∧
      (remaining_files demo7).length = demo7.length - 5) :=
  policyA_tail5_partition demo7

/-- Claim C2: a record whose identifier is in the allowlist's value set
(the full URLs) is placed by Policy B in the remaining files
unconditionally — the loop appends it without consulting its timestamp or
the current time — and no allowlisted identifier ever appears among the
identifiers marked for deletion in any successful Policy B pass. -/
theorem policyB_allowlisted_always_kept (now : Int) (fn tsStr : String) (ts : Nat)
    (rest rows rem : List Row) (dels : List String)
    (hfn : fn ∈ allowlistValues) (hts : strptime tsStr = some ts)
    (hrun : processLoop now rows = some (rem, dels)) :
    processLoop now ([fn, tsStr] :: rest) =
      (processLoop now rest).map (fun p => ([fn, tsStr] :: p.1, p.2)) ∧
    fn ∉ dels := by
  constructor
  · cases hrec : processLoop now rest with
    | none => simp [processLoop, hts, hrec]
    | some p =>
      obtain ⟨rem2, dels2⟩ := p
      simp [processLoop, hts, hrec, hfn]
  · intro hin
    exact processLoop_dels_not_allowlisted now rows rem dels hrun fn hin hfn

/-- Witness for C2: the allowlisted `default.mp3` URL with a creation time
more than 30 days before the reference time is still kept (spec §8
scenario 2), while a non-allowlisted record of the same age is deleted. -/
theorem policyB_allowlisted_always_kept_witness :
    processLoop 63867206760
        [["https://res.cloudinary.com/dsw0dw6j6/video/upload/v1731607560/tiktok_audio/default.mp3",
          "2020-01-01 00:00:00"]] =
      (processLoop 63867206760 []).map
        (fun p =>
          (["https://res.cloudinary.com/dsw0dw6j6/video/upload/v1731607560/tiktok_audio/default.mp3",
            "2020-01-01 00:00:00"] :: p.1, p.2)) ∧
    "https://res.cloudinary.com/dsw0dw6j6/video/upload/v1731607560/tiktok_audio/default.mp3" ∉
      (["x"] : List String) :=
  policyB_allowlisted_always_kept 63867206760
    "https://res.cloudinary.com/dsw0dw6j6/video/upload/v1731607560/tiktok_audio/default.mp3"
    "2020-01-01 00:00:00" 63713433600 [] [["x", "2020-01-01 00:00:00"]] [] ["x"]
    (by decide) (by decide) (by decide)

/-- Claim C3: a record that is not allowlisted is marked for deletion by
Policy B exactly when its age at the current time reference exceeds 30
days (`now - created_at > 30 days`, in seconds); otherwise it is kept.
The embedded code tests `created_at < now - timedelta(days=30)`, which is
equivalent. -/
theorem policyB_age_rule (now : Int) (fn tsStr : String) (ts : Nat) (rest : List Row)
    (hfn : fn ∉ allowlistValues) (hts : strptime tsStr = some ts) :
    processLoop now ([fn, tsStr] :: rest) =
      (processLoop now rest).map (fun p =>
        if now - (ts : Int) > 30 * 86400 then (p.1, fn :: p.2)
        else ([fn, tsStr] :: p.1, p.2)) := by
  cases hrec : processLoop now rest with
  | none => simp [processLoop, hts, hrec]
  | some p =>
    obtain ⟨rem2, dels2⟩ := p
    simp [processLoop, hts, hrec, hfn]
    split_ifs with h1 h2 <;> first | rfl | (exfalso; omega)

/-- Witness for C3: a non-allowlisted record from 2020 processed at a 2024
reference time. -/
theorem policyB_age_rule_witness :
    processLoop 63867206760 [["aged", "2020-01-01 00:00:00"]] =
      (processLoop 63867206760 []).map (fun p =>
        if (63867206760 : Int) - (63713433600 : Nat) > 30 * 86400 then (p.1, "aged" :: p.2)
        else (["aged", "2020-01-01 00:00:00"] :: p.1, p.2)) :=
  policyB_age_rule 63867206760 "aged" "2020-01-01 00:00:00" 63713433600 []
    (by decide) (by decide)

/-- Claim C10: the `"none"` entry of the allowlist maps to the empty
string, so the empty string is in the allowlist's value set, and a record
whose identifier is the empty string is unconditionally kept by Policy B
regardless of its age. -/
theorem policyB_empty_identifier_kept (now : Int) (tsStr : String) (ts : Nat)
    (rest : List Row) (hts : strptime tsStr = some ts) :
    "" ∈ allowlistValues ∧
    processLoop now (["", tsStr] :: rest) =
      (processLoop now rest).map (fun p => (["", tsStr] :: p.1, p.2)) := by
  have hmem : "" ∈ allowlistValues := by decide
  refine ⟨hmem, ?_⟩
  cases hrec : processLoop now rest with
  | none => simp [processLoop, hts, hrec]
  | some p =>
    obtain ⟨rem2, dels2⟩ := p
    simp [processLoop, hts, hrec, hmem]

/-- Witness for C10: an empty-identifier record from 2020 processed at a
2024 reference time is kept. -/
theorem policyB_empty_identifier_kept_witness :
    "" ∈ allowlistValues ∧
    processLoop 63867206760 [["", "2020-01-01 00:00:00"]] =
      (processLoop 63867206760 []).map (fun p => (["", "2020-01-01 00:00:00"] :: p.1, p.2)) :=
  policyB_empty_identifier_kept 63867206760 "2020-01-01 00:00:00" 63713433600 [] (by decide)

/-- Claim C4: Policy B is pure selection with respect to the remote store:
no event of any Policy B run is a remote delete request — deletion of
aged-out files is reported as logged intent only, so the remote store is
left unchanged. -/
theorem policyB_pure_selection (now : Int) (input : Option (List Row)) :
    (process_audio_files now input).all (fun e => ! e.isRemoteDelete) = true := by
  cases input with
  | none => rfl
  | some reader =>
    by_cases h : reader.length ≤ 1
    · simp [process_audio_files, h]
    · cases hp : processLoop now reader.tail with
      | none => simp [process_audio_files, h, hp, List.drop_one]
      | some p =>
        obtain ⟨rem, dels⟩ := p
        simp [process_audio_files, h, hp, List.drop_one, Event.isRemoteDelete]

/-- Claim C5: the persisted RecordSet produced by Policy A reflects only
the selection decision, never the deletion outcome: for every
per-identifier pattern of API behaviour (the universally quantified
`api`, covering `Deleted`, `NotDeleted` and `RequestFailed` in any
combination), every identifier of `ToDelete` is attempted in order — a
`RequestFailed` outcome does not abort the batch — and the output file
contains exactly the header and the `ToKeep` rows, so a record whose
deletion call failed is still dropped. -/
theorem policyA_selection_not_outcome (api : String → DeleteOutcome)
    (fs : String → Option (List Row)) (inputName : String) (hdr : Row) (rows : List Row)
    (hin : fs inputName = some (hdr :: rows)) (hne : rows ≠ [])
    (hwf : ∀ r ∈ rows, ∃ a b, r = [a, b]) :
    (delete_audio_files api (some (hdr :: rows))).2.map Prod.fst =
      (files_to_delete rows).map (fun r => r.headD "") ∧
    runA api fs inputName new_csv_filename = some (csvHeader :: remaining_files rows) := by
  have hsubD : ∀ r ∈ files_to_delete rows, r ≠ [] := by
    intro r hr
    obtain ⟨a, b, rfl⟩ := hwf r (List.drop_subset _ _ hr)
    simp
  have hpass := deletePass_complete api (files_to_delete rows) hsubD
  have hda : delete_audio_files api (some (hdr :: rows)) =
      ((files_to_delete rows).map (fun r => Event.remoteDelete (r.headD "")) ++
        [Event.writeOutput (save_remaining_details_to_csv (remaining_files rows))],
       (files_to_delete rows).map (fun r => (r.headD "", api (r.headD "")))) := by
    simp [delete_audio_files, hne, hpass]
  constructor
  · rw [hda, List.map_map]
    rfl
  · have hdels : ∀ e ∈ (files_to_delete rows).map (fun r => Event.remoteDelete (r.headD "")),
        ∃ id, e = Event.remoteDelete id := by
      intro e he
      obtain ⟨r, _, rfl⟩ := List.mem_map.mp he
      exact ⟨r.headD "", rfl⟩
    have hw : writeRows (remaining_files rows) = remaining_files rows :=
      writeRows_of_pairs _ fun r hr => hwf r (List.take_subset _ _ hr)
    simp only [runA, hin, hda]
    rw [applyFS_append, applyFS_of_deletes fs _ hdels]
    simp [applyFS, save_remaining_details_to_csv, hw]

/-- Witness for C5: a two-record RecordSet processed while every delete
request fails at the transport level; the output still drops both
records. -/
theorem policyA_selection_not_outcome_witness :
    (delete_audio_files (fun _ => DeleteOutcome.RequestFailed)
        (some [csvHeader, ["a", "t1"], ["b", "t2"]])).2.map Prod.fst =
      (files_to_delete [["a", "t1"], ["b", "t2"]]).map (fun r => r.headD "") ∧
    runA (fun _ => DeleteOutcome.RequestFailed) demoFS "in.csv" new_csv_filename =
      some (csvHeader :: remaining_files [["a", "t1"], ["b", "t2"]]) :=
  policyA_selection_not_outcome (fun _ => DeleteOutcome.RequestFailed) demoFS "in.csv"
    csvHeader [["a", "t1"], ["b", "t2"]] (by decide) (by decide)
    (by
      intro r hr
      simp only [List.mem_cons, List.not_mem_nil, or_false] at hr
      rcases hr with rfl | rfl
      · exact ⟨"a", "t1", rfl⟩
      · exact ⟨"b", "t2", rfl⟩)

/-- Claim C7: on a nonempty RecordSet of fewer than 5 records, a Policy A
run deletes everything and writes a header-only (empty) output record; a
second run reading that output returns early, leaves the file system
untouched, and the output record is still empty.  The tail-5 selection of
an empty RecordSet is empty, and a run on a header-only input file is a
no-op (no delete events, no write, no error). -/
theorem policyA_small_idempotent (api api2 : String → DeleteOutcome)
    (fs : String → Option (List Row)) (inputName : String) (hdr : Row) (rows : List Row)
    (g : String → Option (List Row))
    (hin : fs inputName = some (hdr :: rows))
    (hlen : rows.length < 5) (hne : rows ≠ []) (hrows : ∀ r ∈ rows, r ≠ [])
    (hg : g inputName = some [hdr]) :
    runA api fs inputName new_csv_filename = some [csvHeader] ∧
    runA api2 (runA api fs inputName) new_csv_filename = runA api fs inputName ∧
    runA api2 (runA api fs inputName) new_csv_filename new_csv_filename = some [csvHeader] ∧
    files_to_delete ([] : List Row) = [] ∧
    runA api2 g inputName = g := by
  have h5 : rows.length - 5 = 0 := by omega
  have hftd : files_to_delete rows = rows := by simp [files_to_delete, h5]
  have hrem : remaining_files rows = [] := by simp [remaining_files, h5]
  have hpass0 := deletePass_complete api rows hrows
  have hpass : deletePass api (files_to_delete rows) =
      (rows.map (fun r => Event.remoteDelete (r.headD "")),
       rows.map (fun r => (r.headD "", api (r.headD ""))), true) := by
    rw [hftd]; exact hpass0
  have hda : delete_audio_files api (some (hdr :: rows)) =
      (rows.map (fun r => Event.remoteDelete (r.headD "")) ++ [Event.writeOutput [csvHeader]],
       rows.map (fun r => (r.headD "", api (r.headD "")))) := by
    simp [delete_audio_files, hne, hpass, hrem, save_remaining_details_to_csv, writeRows]
  have hdels : ∀ e ∈ rows.map (fun r => Event.remoteDelete (r.headD "")),
      ∃ id, e = Event.remoteDelete id := by
    intro e he
    obtain ⟨r, _, rfl⟩ := List.mem_map.mp he
    exact ⟨r.headD "", rfl⟩
  have h1 : runA api fs inputName new_csv_filename = some [csvHeader] := by
    simp only [runA, hin, hda]
    rw [applyFS_append, applyFS_of_deletes fs _ hdels]
    simp [applyFS]
  have h2 : ∀ f1 : String → Option (List Row), f1 new_csv_filename = some [csvHeader] →
      runA api2 f1 new_csv_filename = f1 := by
    intro f1 hf1
    simp only [runA, hf1]
    simp [delete_audio_files, applyFS]
  refine ⟨h1, h2 _ h1, by rw [h2 _ h1]; exact h1, rfl, ?_⟩
  simp only [runA, hg]
  simp [delete_audio_files, applyFS]

/-- Witness for C7 at a one-record RecordSet and a header-only RecordSet. -/
theorem policyA_small_idempotent_witness :
    runA (fun _ => DeleteOutcome.Deleted) demoFS1 "in.csv" new_csv_filename =
      some [csvHeader] ∧
    runA (fun _ => DeleteOutcome.NotDeleted)
        (runA (fun _ => DeleteOutcome.Deleted) demoFS1 "in.csv") new_csv_filename =
      runA (fun _ => DeleteOutcome.Deleted) demoFS1 "in.csv" ∧
    runA (fun _ => DeleteOutcome.NotDeleted)
        (runA (fun _ => DeleteOutcome.Deleted) demoFS1 "in.csv") new_csv_filename
        new_csv_filename = some [csvHeader] ∧
    files_to_delete ([] : List Row) = [] ∧
    runA (fun _ => DeleteOutcome.NotDeleted) emptyRecordFS "in.csv" = emptyRecordFS :=
  policyA_small_idempotent (fun _ => DeleteOutcome.Deleted) (fun _ => DeleteOutcome.NotDeleted)
    demoFS1 "in.csv" csvHeader [["a", "t1"]] emptyRecordFS (by decide) (by decide) (by decide)
    (by intro r hr; simp only [List.mem_cons, List.not_mem_nil, or_false] at hr; subst hr; simp)
    (by decide)

/-- Claim C8: in every Policy A run the rewrite of the persisted record is
the last event, after the full delete pass: every proper prefix of the
run's event trace consists of remote delete requests only and leaves the
file system — in particular the record file — in its pre-run state. -/
theorem policyA_rewrite_after_full_pass (api : String → DeleteOutcome)
    (input : Option (List Row)) (fs : String → Option (List Row)) (k : Nat)
    (hk : k < ((delete_audio_files api input).1).length) :
    applyFS fs (((delete_audio_files api input).1).take k) = fs ∧
    (((delete_audio_files api input).1).take k).all Event.isRemoteDelete = true := by
  have hdel : ∀ e ∈ ((delete_audio_files api input).1).take k,
      ∃ id, e = Event.remoteDelete id := by
    cases input with
    | none => simp [delete_audio_files] at hk
    | some reader =>
      by_cases hl : reader.length ≤ 1
      · simp [delete_audio_files, hl] at hk
      · cases hb : (deletePass api (files_to_delete reader.tail)).2.2 with
        | false =>
          have h1 : (delete_audio_files api (some reader)).1 =
              (deletePass api (files_to_delete reader.tail)).1 := by
            simp [delete_audio_files, hl, hb, List.drop_one]
          rw [h1]
          intro e he
          exact deletePass_events_delete api _ e (List.take_subset _ _ he)
        | true =>
          have h1 : (delete_audio_files api (some reader)).1 =
              (deletePass api (files_to_delete reader.tail)).1 ++
                [Event.writeOutput (save_remaining_details_to_csv
                  (remaining_files reader.tail))] := by
            simp [delete_audio_files, hl, hb, List.drop_one]
          rw [h1] at hk ⊢
          have hk2 : k ≤ (deletePass api (files_to_delete reader.tail)).1.length := by
            simp only [List.length_append, List.length_cons, List.length_nil] at hk
            omega
          rw [List.take_append_of_le_length hk2]
          intro e he
          exact deletePass_events_delete api _ e (List.take_subset _ _ he)
  refine ⟨applyFS_of_deletes fs _ hdel, ?_⟩
  rw [List.all_eq_true]
  intro e he
  obtain ⟨id, rfl⟩ := hdel e he
  rfl

/-- Witness for C8: interrupting the two-record demo run after its first
delete event leaves the file system untouched. -/
theorem policyA_rewrite_after_full_pass_witness :
    applyFS demoFS (((delete_audio_files (fun _ => DeleteOutcome.Deleted)
        (demoFS "in.csv")).1).take 1) = demoFS ∧
    (((delete_audio_files (fun _ => DeleteOutcome.Deleted)
        (demoFS "in.csv")).1).take 1).all Event.isRemoteDelete = true :=
  policyA_rewrite_after_full_pass (fun _ => DeleteOutcome.Deleted) (demoFS "in.csv")
    demoFS 1 (by decide)

/-- Counterexample to C9 as stated: when the input CSV is itself named
`RemainingAudioFileDetails.csv`, the Policy A run rewrites the very file
it was given as input. -/
theorem policyA_selfnamed_input_overwritten :
    runA (fun _ => DeleteOutcome.Deleted) selfNamedFS new_csv_filename new_csv_filename ≠
      selfNamedFS new_csv_filename := by decide

/-- Claim C9 (amended): neither reconciliation run ever writes to any file
other than the fixed `RemainingAudioFileDetails.csv`; in particular, an
input file not bearing that name is unchanged when either run completes. -/
theorem runs_write_only_fixed_output (api : String → DeleteOutcome) (now : Int)
    (fs : String → Option (List Row)) (inputName name : String)
    (h : name ≠ new_csv_filename) :
    runA api fs inputName name = fs name ∧ runB now fs inputName name = fs name :=
  ⟨applyFS_ne fs _ name h, applyFS_ne fs _ name h⟩

/-- Witness for the amended C9: the listing file `AudioFileDetails.csv` is
untouched by both runs over the demo file system. -/
theorem runs_write_only_fixed_output_witness :
    runA (fun _ => DeleteOutcome.Deleted) demoFS "in.csv" "AudioFileDetails.csv" =
      demoFS "AudioFileDetails.csv" ∧
    runB 0 demoFS "in.csv" "AudioFileDetails.csv" = demoFS "AudioFileDetails.csv" :=
  runs_write_only_fixed_output (fun _ => DeleteOutcome.Deleted) 0 demoFS "in.csv"
    "AudioFileDetails.csv" (by decide)
